import Mathlib

/-!
Shallow embedding of the `entity_handle` crate (reference-counted entity/intent
handles with deferred drop reconciliation) and of the `registry` crate's
component-value registry, together with proofs of the specification claims.

Modelling conventions:
* `Entity`, `ComponentId`, `TypeId` are `Nat`; bevy never reuses an `Entity`
  identifier handed out by `Commands::spawn` (index + generation), so fresh
  entities are drawn from a monotone counter `World.nextEntity`.
* Each `Arc<StrongEntityHandle>` / `Arc<StrongEntityIntentHandle>` is a token
  (`TokenId`) with an explicit strong count in `HandlerState.counts`; a `Weak`
  stored in a handler table upgrades successfully iff the token's strong count
  is nonzero.  Once a count reaches zero it can never rise again (only clones
  of live `Arc`s increment it), exactly as for `Arc`/`Weak`.
* Bevy `Commands` are modelled by an explicit pending command list applied to
  the `World` at flush points (`AppState.flush`); commands addressing a
  despawned entity are ignored.
* crossbeam channels are FIFO queues: `send` appends, `try_recv` pops from the
  front; `EntityHandler::execute` drains a whole queue.
* Rust panics (`expect`, `panic!`) are modelled by `Option`/`none`.
-/

namespace Refactory

abbrev Entity := Nat
abbrev ComponentId := Nat
abbrev TypeId := Nat
abbrev TokenId := Nat

/-- Pointwise update of a function-backed map (`HashMap::insert` and friends). -/
def fset {α β : Type} [DecidableEq α] (m : α → β) (k : α) (v : β) : α → β :=
  fun k' => if k' = k then v else m k'

/-- Deferred structural commands queued on bevy `Commands` and applied at the
next flush point. -/
inductive Cmd where
  | spawn (entity : Entity) (components : List ComponentId)
  | insertMarker (entity : Entity) (component : ComponentId)
  | removeMarker (entity : Entity) (component : ComponentId)
  | despawn (entity : Entity)
deriving DecidableEq, Repr

/-- The substrate world: which entities are alive and which marker components
each carries.  Fresh entities come from the monotone counter `nextEntity`. -/
structure World where
  nextEntity : Entity
  alive : Entity → Bool
  markers : Entity → ComponentId → Bool

/-- Application of one deferred command at a flush point. -/
def World.applyCmd (w : World) : Cmd → World
  | .spawn e comps =>
      { w with alive := fset w.alive e true,
               markers := fun e' c => if e' = e then comps.contains c else w.markers e' c }
  | .insertMarker e c =>
      if w.alive e then
        { w with markers := fun e' c' => if e' = e ∧ c' = c then true else w.markers e' c' }
      else w
  | .removeMarker e c =>
      if w.alive e then
        { w with markers := fun e' c' => if e' = e ∧ c' = c then false else w.markers e' c' }
      else w
  | .despawn e =>
      if w.alive e then
        { w with alive := fset w.alive e false,
                 markers := fun e' c => if e' = e then false else w.markers e' c }
      else w

/-- `DropIntentEvent { entity, intent_component }` from `entity_handle/src/lib.rs`. -/
structure DropIntentEvent where
  entity : Entity
  intent_component : ComponentId
deriving DecidableEq, Repr

/-- The `EntityHandler` resource: strong counts of all reference-counted
tokens, the two weak-reference tables, and the two drop-event queues
(`DropEntityEvent` carries just the entity).  `nextToken` allocates fresh
token identities for newly created `Arc`s. -/
structure HandlerState where
  counts : TokenId → Nat
  entity_handles : Entity → Option TokenId
  intent_handles : Entity × ComponentId → Option TokenId
  drop_entity_queue : List Entity
  drop_intent_queue : List DropIntentEvent
  nextToken : TokenId

/-- `Weak::upgrade` on a table lookup result: succeeds iff the token still has
a nonzero strong count (`Option::and_then(|h| h.upgrade())`). -/
def HandlerState.upgrade (h : HandlerState) : Option TokenId → Option TokenId
  | some tok => if h.counts tok = 0 then none else some tok
  | none => none

/-- `EntityHandler::default()`: fresh channels and empty weak tables. -/
def HandlerState.init : HandlerState :=
  { counts := fun _ => 0
    entity_handles := fun _ => none
    intent_handles := fun _ => none
    drop_entity_queue := []
    drop_intent_queue := []
    nextToken := 0 }

/-- One iteration of the first loop of `EntityHandler::execute`: look up the
weak intent token for the event's `(entity, intent_component)` key; if the
lookup-plus-upgrade fails (`map_or_default(|h| h.upgrade().is_none())`, which
is `false` when the key is absent), queue removal of the marker component and
erase the weak-table entry; otherwise do nothing. -/
def processIntentEvent (h : HandlerState) (ev : DropIntentEvent) : HandlerState × List Cmd :=
  match h.intent_handles (ev.entity, ev.intent_component) with
  | none => (h, [])
  | some tok =>
      if h.counts tok = 0 then
        ({ h with intent_handles := fset h.intent_handles (ev.entity, ev.intent_component) none },
         [Cmd.removeMarker ev.entity ev.intent_component])
      else (h, [])

/-- One iteration of the second loop of `EntityHandler::execute`: same
re-validation against the per-entity weak table, then despawn and erase. -/
def processEntityEvent (h : HandlerState) (e : Entity) : HandlerState × List Cmd :=
  match h.entity_handles e with
  | none => (h, [])
  | some tok =>
      if h.counts tok = 0 then
        ({ h with entity_handles := fset h.entity_handles e none },
         [Cmd.despawn e])
      else (h, [])

/-- The first `while let Ok(event) = self.drop_intent_rx.try_recv()` loop. -/
def processIntentEvents (h : HandlerState) : List DropIntentEvent → HandlerState × List Cmd
  | [] => (h, [])
  | ev :: evs =>
      let r := processIntentEvent h ev
      let rest := processIntentEvents r.1 evs
      (rest.1, r.2 ++ rest.2)

/-- The second `while let Ok(event) = self.drop_entity_rx.try_recv()` loop. -/
def processEntityEvents (h : HandlerState) : List Entity → HandlerState × List Cmd
  | [] => (h, [])
  | e :: es =>
      let r := processEntityEvent h e
      let rest := processEntityEvents r.1 es
      (rest.1, r.2 ++ rest.2)

/-- `EntityHandler::execute`: drain all pending intent-drop events, then all
pending entity-drop events, emitting the deferred commands in that order. -/
def EntityHandler.execute (h : HandlerState) : HandlerState × List Cmd :=
  let ri := processIntentEvents { h with drop_intent_queue := [] } h.drop_intent_queue
  let re := processEntityEvents { ri.1 with drop_entity_queue := [] } ri.1.drop_entity_queue
  (re.1, ri.2 ++ re.2)

/-- The whole app state the core touches: the substrate world, the
`EntityHandler` resource, the `IntentComponentsRegistry` resource (`none` when
the plugin never initialized it), bevy's component registrations, the
`EntityRegistry<Id>` resource (identity keys as `Nat`), and the pending
deferred commands. -/
structure AppState where
  world : World
  handler : HandlerState
  intentRegistry : Option (TypeId → Option ComponentId)
  components : TypeId → Option ComponentId
  nextComponentId : Nat
  registry : Nat → Option Entity
  pending : List Cmd

/-- Apply all pending commands to the world (a bevy sync point). -/
def AppState.flush (s : AppState) : AppState :=
  { s with world := s.pending.foldl World.applyCmd s.world, pending := [] }

/-- One `app.update()` as far as the core is concerned: run the `PostUpdate`
system `EntityHandler::execute`, then apply the commands it queued. -/
def AppState.update (s : AppState) : AppState :=
  AppState.flush
    { s with handler := (EntityHandler.execute s.handler).1,
             pending := s.pending ++ (EntityHandler.execute s.handler).2 }

/-- `EntityHandle<Intent>`: the entity plus shared ownership of the two
strong tokens (the `Arc<StrongEntityHandle>` and the
`Arc<StrongEntityIntentHandle>` for `intent_component`). -/
structure EntityHandle where
  entity : Entity
  entityToken : TokenId
  intent_component : ComponentId
  intentToken : TokenId
deriving DecidableEq, Repr

/-- `Drop for StrongEntityHandle`: release one strong reference to the entity
token; when the count reaches zero, send `DropEntityEvent(entity)`. -/
def dropEntityToken (h : HandlerState) (e : Entity) (tok : TokenId) : HandlerState :=
  { h with counts := fset h.counts tok (h.counts tok - 1),
           drop_entity_queue :=
             if h.counts tok = 1 then h.drop_entity_queue ++ [e] else h.drop_entity_queue }

/-- `Drop for StrongEntityIntentHandle`: release one strong reference to the
intent token; when the count reaches zero, send
`DropIntentEvent { entity, intent_component }`. -/
def dropIntentToken (h : HandlerState) (e : Entity) (c : ComponentId) (tok : TokenId) :
    HandlerState :=
  { h with counts := fset h.counts tok (h.counts tok - 1),
           drop_intent_queue :=
             if h.counts tok = 1 then h.drop_intent_queue ++ [DropIntentEvent.mk e c]
             else h.drop_intent_queue }

/-- Dropping an `EntityHandle` value releases its two `Arc` fields in
declaration order: the entity token, then the intent token. -/
def EntityHandle.dropHandle (hd : EntityHandle) (s : AppState) : AppState :=
  { s with
    handler :=
      dropIntentToken (dropEntityToken s.handler hd.entity hd.entityToken)
        hd.entity hd.intent_component hd.intentToken }

/-- `EntityServer::spawn::<Intent>(bundle)`: reserve a fresh entity and queue
its spawn (bundle plus `IntentMarker::<Intent>`), create the two strong tokens
with count 1, record them weakly in the handler tables, and return the handle.
Panics (`none`) when `Intent` was never registered in the
`IntentComponentsRegistry`. -/
def EntityServer.spawn (intent : TypeId) (bundle : List ComponentId) (s : AppState) :
    Option (EntityHandle × AppState) :=
  match s.intentRegistry with
  | none => none
  | some reg =>
    match reg intent with
    | none => none
    | some intent_component =>
      some (⟨s.world.nextEntity, s.handler.nextToken, intent_component,
             s.handler.nextToken + 1⟩,
        { s with
          world := { s.world with nextEntity := s.world.nextEntity + 1 },
          handler := { s.handler with
            counts := fset (fset s.handler.counts s.handler.nextToken 1)
              (s.handler.nextToken + 1) 1,
            entity_handles := fset s.handler.entity_handles s.world.nextEntity
              (some s.handler.nextToken),
            intent_handles := fset s.handler.intent_handles
              (s.world.nextEntity, intent_component) (some (s.handler.nextToken + 1)),
            nextToken := s.handler.nextToken + 2 },
          pending := s.pending ++ [Cmd.spawn s.world.nextEntity (bundle ++ [intent_component])] })

/-- `EntityServer::to_managed::<Intent>(entity)`: reuse the live entity token
if its weak entry upgrades (an `Arc::clone`, incrementing the count), else
create and record a fresh one; then the same for the `(entity, intent)` token,
additionally queueing insertion of `IntentMarker::<Intent>` when a fresh
intent token is created.  Panics (`none`) when `Intent` was never
registered. -/
def EntityServer.to_managed (intent : TypeId) (entity : Entity) (s : AppState) :
    Option (EntityHandle × AppState) :=
  match s.intentRegistry with
  | none => none
  | some reg =>
    let ep : TokenId × HandlerState :=
      match s.handler.upgrade (s.handler.entity_handles entity) with
      | some tok =>
          (tok, { s.handler with counts := fset s.handler.counts tok (s.handler.counts tok + 1) })
      | none =>
          (s.handler.nextToken,
           { s.handler with
             counts := fset s.handler.counts s.handler.nextToken 1,
             entity_handles := fset s.handler.entity_handles entity
               (some s.handler.nextToken),
             nextToken := s.handler.nextToken + 1 })
    match reg intent with
    | none => none
    | some intent_component =>
      let ip : TokenId × HandlerState × List Cmd :=
        match ep.2.upgrade (ep.2.intent_handles (entity, intent_component)) with
        | some tok =>
            (tok, { ep.2 with counts := fset ep.2.counts tok (ep.2.counts tok + 1) }, [])
        | none =>
            (ep.2.nextToken,
             { ep.2 with
               counts := fset ep.2.counts ep.2.nextToken 1,
               intent_handles := fset ep.2.intent_handles (entity, intent_component)
                 (some ep.2.nextToken),
               nextToken := ep.2.nextToken + 1 },
             [Cmd.insertMarker entity intent_component])
      some (⟨entity, ep.1, intent_component, ip.1⟩,
        { s with handler := ip.2.1, pending := s.pending ++ ip.2.2 })

/-- `EntityAssetServer::<Id>::get_asset::<Intent>(id)`: if `id` is in the
`EntityRegistry`, delegate to `to_managed` on the registered entity; otherwise
spawn a fresh entity carrying `IdMarker::<Id>` (component id `idMarker`) and
record `id → entity` in the registry.  The `EntityAssetHandle` upcast is the
identity on the underlying handle. -/
def EntityAssetServer.get_asset (intent : TypeId) (idMarker : ComponentId) (id : Nat)
    (s : AppState) : Option (EntityHandle × AppState) :=
  match s.registry id with
  | some entity => EntityServer.to_managed intent entity s
  | none =>
      match EntityServer.spawn intent [idMarker] s with
      | none => none
      | some (hd, s1) =>
          some (hd, { s1 with registry := fset s1.registry id (some hd.entity) })

/-- `World::register_component::<IntentMarker<Intent>>()`: return the existing
component id for the type, or allocate a fresh one. -/
def register_component (t : TypeId) (s : AppState) : ComponentId × AppState :=
  match s.components t with
  | some cid => (cid, s)
  | none =>
      (s.nextComponentId,
       { s with components := fset s.components t (some s.nextComponentId),
                nextComponentId := s.nextComponentId + 1 })

/-- `App::register_intent::<Intent>()`: register the marker component, then
insert `TypeId::of::<Intent>() → component id` into the
`IntentComponentsRegistry`; panics (`none`) when the plugin (which creates
that resource) was never added. -/
def register_intent (intent : TypeId) (s : AppState) : Option AppState :=
  let r := register_component intent s
  match r.2.intentRegistry with
  | none => none
  | some reg => some { r.2 with intentRegistry := some (fset reg intent (some r.1)) }

/-- `TypeId::of::<()>`. -/
def unitTypeId : TypeId := 0

/-- `EntityHandlePlugin::build`: `init_resource::<IntentComponentsRegistry>()`
(keep an existing resource, else create an empty one) followed by
`register_intent::<()>()`.  (`init_resource::<EntityHandler>` and the system
registration are carried by `AppState.handler` / `AppState.update`.) -/
def EntityHandlePlugin.build (s : AppState) : Option AppState :=
  register_intent unitTypeId
    { s with intentRegistry := some (s.intentRegistry.getD (fun _ => none)) }

/-- `registry` crate, `Registry::<T>::on_component_inserted`: triggered when a
component of value type `T` (values as `Nat`) is inserted on `entity`;
`val` is the `Query<&T>` lookup.  Returns the updated registry map, or `none`
for the `panic!` raised when `try_insert` finds the value already present. -/
def Registry.on_component_inserted (registry : Nat → Option Entity) (entity : Entity)
    (val : Entity → Option Nat) : Option (Nat → Option Entity) :=
  match val entity with
  | none => some registry
  | some component =>
      match registry component with
      | some _ => none
      | none => some (fset registry component (some entity))

/-- Queue wellformedness: all queued drop events concern entities already
allocated (strictly below `n`). -/
def HandlerState.queuesBelow (h : HandlerState) (n : Nat) : Prop :=
  (∀ e ∈ h.drop_entity_queue, e < n) ∧ (∀ ev ∈ h.drop_intent_queue, ev.entity < n)

/-! ### Concrete fixtures used by the witness scenarios -/

/-- A concrete `IntentComponentsRegistry`: intents `3` and `4` registered with
marker components `7` and `8`. -/
def wReg : TypeId → Option ComponentId :=
  fun t => if t = 3 then some 7 else if t = 4 then some 8 else none

/-- A concrete world: entity `5` alive and carrying marker `7`. -/
def wWorld : World :=
  { nextEntity := 6
    alive := fun e => e == 5
    markers := fun e c => e == 5 && c == 7 }

/-- A concrete handler with one live entity token `0` (count 1) for entity `5`
and one live intent token `1` (count 1) for `(5, 7)`. -/
def wHandlerLive : HandlerState :=
  { counts := fun t => if t < 2 then 1 else 0
    entity_handles := fun e => if e = 5 then some 0 else none
    intent_handles := fun k => if k = (5, 7) then some 1 else none
    drop_entity_queue := []
    drop_intent_queue := []
    nextToken := 2 }

/-- App state holding `wWorld` and `wHandlerLive`. -/
def wStateLive : AppState :=
  { world := wWorld
    handler := wHandlerLive
    intentRegistry := some wReg
    components := fun _ => none
    nextComponentId := 0
    registry := fun _ => none
    pending := [] }

/-- The (sole) live handle for entity `5` under intent component `7`. -/
def wHandle : EntityHandle := ⟨5, 0, 7, 1⟩

/-- A freshly initialized app state with intents `3`/`4` registered. -/
def wStateEmpty : AppState :=
  { world := { nextEntity := 0, alive := fun _ => false, markers := fun _ _ => false }
    handler := HandlerState.init
    intentRegistry := some wReg
    components := fun _ => none
    nextComponentId := 0
    registry := fun _ => none
    pending := [] }

/-- `wStateEmpty` with one pre-existing `EntityRegistry` mapping `1 → 9`. -/
def wStateReg : AppState :=
  { wStateEmpty with registry := fun k => if k = 1 then some 9 else none }

/-- A concrete `Registry<T>` map: value `2` claimed by entity `4`. -/
def wRegistryMap : Nat → Option Entity := fun v => if v = 2 then some 4 else none

/-- A concrete `Query<&T>` lookup: entity `6` carries value `2`. -/
def wValQuery : Entity → Option Nat := fun e => if e = 6 then some 2 else none

/-! ### Basic lemmas about map updates and event processing -/

@[simp] theorem fset_same {α β : Type} [DecidableEq α] (m : α → β) (k : α) (v : β) :
    fset m k v k = v := by
  simp [fset]

theorem fset_other {α β : Type} [DecidableEq α] (m : α → β) {k k' : α} (v : β) (h : k' ≠ k) :
    fset m k v k' = m k' := by
  simp [fset, h]

/-- `processIntentEvent` either skips (key absent, or the weak token still
upgrades) or removes the marker and erases the weak entry. -/
theorem processIntentEvent_cases (h : HandlerState) (ev : DropIntentEvent) :
    processIntentEvent h ev = (h, []) ∨
    ∃ t, h.intent_handles (ev.entity, ev.intent_component) = some t ∧ h.counts t = 0 ∧
      processIntentEvent h ev =
        ({ h with intent_handles := fset h.intent_handles (ev.entity, ev.intent_component) none },
         [Cmd.removeMarker ev.entity ev.intent_component]) := by
  unfold processIntentEvent
  cases hm : h.intent_handles (ev.entity, ev.intent_component) with
  | none => exact Or.inl rfl
  | some tok =>
      by_cases hc : h.counts tok = 0
      · exact Or.inr ⟨tok, rfl, hc, by simp [hc]⟩
      · exact Or.inl (by simp [hc])

/-- `processEntityEvent` either skips or despawns and erases the weak entry. -/
theorem processEntityEvent_cases (h : HandlerState) (e : Entity) :
    processEntityEvent h e = (h, []) ∨
    ∃ t, h.entity_handles e = some t ∧ h.counts t = 0 ∧
      processEntityEvent h e =
        ({ h with entity_handles := fset h.entity_handles e none },
         [Cmd.despawn e]) := by
  unfold processEntityEvent
  cases hm : h.entity_handles e with
  | none => exact Or.inl rfl
  | some tok =>
      by_cases hc : h.counts tok = 0
      · exact Or.inr ⟨tok, rfl, hc, by simp [hc]⟩
      · exact Or.inl (by simp [hc])

theorem processIntentEvent_frame (h : HandlerState) (ev : DropIntentEvent) :
    (processIntentEvent h ev).1.counts = h.counts ∧
    (processIntentEvent h ev).1.entity_handles = h.entity_handles ∧
    (processIntentEvent h ev).1.drop_entity_queue = h.drop_entity_queue ∧
    (processIntentEvent h ev).1.drop_intent_queue = h.drop_intent_queue := by
  rcases processIntentEvent_cases h ev with hc | ⟨t, _, _, hc⟩ <;> rw [hc] <;> exact ⟨rfl, rfl, rfl, rfl⟩

theorem processEntityEvent_frame (h : HandlerState) (e : Entity) :
    (processEntityEvent h e).1.counts = h.counts ∧
    (processEntityEvent h e).1.intent_handles = h.intent_handles ∧
    (processEntityEvent h e).1.drop_entity_queue = h.drop_entity_queue ∧
    (processEntityEvent h e).1.drop_intent_queue = h.drop_intent_queue := by
  rcases processEntityEvent_cases h e with hc | ⟨t, _, _, hc⟩ <;> rw [hc] <;> exact ⟨rfl, rfl, rfl, rfl⟩

theorem processIntentEvents_frame (evs : List DropIntentEvent) : ∀ h : HandlerState,
    (processIntentEvents h evs).1.counts = h.counts ∧
    (processIntentEvents h evs).1.entity_handles = h.entity_handles ∧
    (processIntentEvents h evs).1.drop_entity_queue = h.drop_entity_queue ∧
    (processIntentEvents h evs).1.drop_intent_queue = h.drop_intent_queue := by
  induction evs with
  | nil => intro h; exact ⟨rfl, rfl, rfl, rfl⟩
  | cons ev evs ih =>
      intro h
      have h1 := processIntentEvent_frame h ev
      have h2 := ih (processIntentEvent h ev).1
      simp only [processIntentEvents]
      exact ⟨h2.1.trans h1.1, h2.2.1.trans h1.2.1,
        h2.2.2.1.trans h1.2.2.1, h2.2.2.2.trans h1.2.2.2⟩

theorem processEntityEvents_frame (es : List Entity) : ∀ h : HandlerState,
    (processEntityEvents h es).1.counts = h.counts ∧
    (processEntityEvents h es).1.intent_handles = h.intent_handles ∧
    (processEntityEvents h es).1.drop_entity_queue = h.drop_entity_queue ∧
    (processEntityEvents h es).1.drop_intent_queue = h.drop_intent_queue := by
  induction es with
  | nil => intro h; exact ⟨rfl, rfl, rfl, rfl⟩
  | cons e es ih =>
      intro h
      have h1 := processEntityEvent_frame h e
      have h2 := ih (processEntityEvent h e).1
      simp only [processEntityEvents]
      exact ⟨h2.1.trans h1.1, h2.2.1.trans h1.2.1,
        h2.2.2.1.trans h1.2.2.1, h2.2.2.2.trans h1.2.2.2⟩

/-- Every command emitted by the intent loop is a marker removal naming one of
the processed events. -/
theorem processIntentEvents_shape (evs : List DropIntentEvent) : ∀ h : HandlerState,
    ∀ c ∈ (processIntentEvents h evs).2,
      ∃ ev ∈ evs, c = Cmd.removeMarker ev.entity ev.intent_component := by
  induction evs with
  | nil => intro h c hc; simp [processIntentEvents] at hc
  | cons ev evs ih =>
      intro h c hc
      simp only [processIntentEvents, List.mem_append] at hc
      rcases hc with hc | hc
      · rcases processIntentEvent_cases h ev with he | ⟨t, _, _, he⟩ <;> rw [he] at hc
        · simp at hc
        · simp at hc
          exact ⟨ev, List.mem_cons_self ev evs, hc⟩
      · rcases ih (processIntentEvent h ev).1 c hc with ⟨ev', hev', hc'⟩
        exact ⟨ev', List.mem_cons_of_mem ev hev', hc'⟩

/-- Every command emitted by the entity loop is a despawn naming one of the
processed events. -/
theorem processEntityEvents_shape (es : List Entity) : ∀ h : HandlerState,
    ∀ c ∈ (processEntityEvents h es).2, ∃ e ∈ es, c = Cmd.despawn e := by
  induction es with
  | nil => intro h c hc; simp [processEntityEvents] at hc
  | cons e es ih =>
      intro h c hc
      simp only [processEntityEvents, List.mem_append] at hc
      rcases hc with hc | hc
      · rcases processEntityEvent_cases h e with he | ⟨t, _, _, he⟩ <;> rw [he] at hc
        · simp at hc
        · simp at hc
          exact ⟨e, List.mem_cons_self e es, hc⟩
      · rcases ih (processEntityEvent h e).1 c hc with ⟨e', he', hc'⟩
        exact ⟨e', List.mem_cons_of_mem e he', hc'⟩

theorem processIntentEvents_append (l1 l2 : List DropIntentEvent) : ∀ h : HandlerState,
    processIntentEvents h (l1 ++ l2) =
      ((processIntentEvents (processIntentEvents h l1).1 l2).1,
       (processIntentEvents h l1).2 ++ (processIntentEvents (processIntentEvents h l1).1 l2).2) := by
  induction l1 with
  | nil => intro h; simp [processIntentEvents]
  | cons ev l1 ih =>
      intro h
      simp only [List.cons_append, processIntentEvents, List.append_assoc]
      rw [show List.append l1 l2 = l1 ++ l2 from rfl, ih]

theorem processEntityEvents_append (l1 l2 : List Entity) : ∀ h : HandlerState,
    processEntityEvents h (l1 ++ l2) =
      ((processEntityEvents (processEntityEvents h l1).1 l2).1,
       (processEntityEvents h l1).2 ++ (processEntityEvents (processEntityEvents h l1).1 l2).2) := by
  induction l1 with
  | nil => intro h; simp [processEntityEvents]
  | cons e l1 ih =>
      intro h
      simp only [List.cons_append, processEntityEvents, List.append_assoc]
      rw [show List.append l1 l2 = l1 ++ l2 from rfl, ih]

/-- Re-validation: a weak intent entry whose token still has live strong
references survives the whole intent loop, and no removal command is emitted
for its key (the reacquire-wins check of the reconciler). -/
theorem processIntentEvents_live (evs : List DropIntentEvent) : ∀ h : HandlerState,
    ∀ {e : Entity} {c : ComponentId} {t : TokenId},
    h.intent_handles (e, c) = some t → h.counts t ≠ 0 →
    (processIntentEvents h evs).1.intent_handles (e, c) = some t ∧
      Cmd.removeMarker e c ∉ (processIntentEvents h evs).2 := by
  induction evs with
  | nil => intro h e c t ht hc; simpa [processIntentEvents] using ht
  | cons ev evs ih =>
      intro h e c t ht hc
      have hstep : (processIntentEvent h ev).1.intent_handles (e, c) = some t ∧
          Cmd.removeMarker e c ∉ (processIntentEvent h ev).2 := by
        rcases processIntentEvent_cases h ev with he | ⟨t', ht', hc', he⟩
        · rw [he]; exact ⟨ht, by simp⟩
        · rw [he]
          have hkey : (e, c) ≠ (ev.entity, ev.intent_component) := by
            intro hk
            rw [← hk] at ht'
            rw [ht] at ht'
            cases ht'
            exact hc hc'
          refine ⟨(fset_other _ _ hkey).trans ht, ?_⟩
          simp only [List.mem_singleton]
          intro hcmd
          cases hcmd
          exact hkey rfl
      have hrest := ih (processIntentEvent h ev).1 hstep.1
        (by rw [(processIntentEvent_frame h ev).1]; exact hc)
      simp only [processIntentEvents, List.mem_append]
      exact ⟨hrest.1, fun hmem => hmem.elim hstep.2 hrest.2⟩

/-- Re-validation: a weak entity entry whose token still has live strong
references survives the whole entity loop, and no despawn is emitted for it. -/
theorem processEntityEvents_live (es : List Entity) : ∀ h : HandlerState,
    ∀ {e : Entity} {t : TokenId},
    h.entity_handles e = some t → h.counts t ≠ 0 →
    (processEntityEvents h es).1.entity_handles e = some t ∧
      Cmd.despawn e ∉ (processEntityEvents h es).2 := by
  induction es with
  | nil => intro h e t ht hc; simpa [processEntityEvents] using ht
  | cons e' es ih =>
      intro h e t ht hc
      have hstep : (processEntityEvent h e').1.entity_handles e = some t ∧
          Cmd.despawn e ∉ (processEntityEvent h e').2 := by
        rcases processEntityEvent_cases h e' with he | ⟨t', ht', hc', he⟩
        · rw [he]; exact ⟨ht, by simp⟩
        · rw [he]
          have hkey : e ≠ e' := by
            intro hk
            rw [← hk] at ht'
            rw [ht] at ht'
            cases ht'
            exact hc hc'
          refine ⟨(fset_other _ _ hkey).trans ht, ?_⟩
          simp only [List.mem_singleton]
          intro hcmd
          cases hcmd
          exact hkey rfl
      have hrest := ih (processEntityEvent h e').1 hstep.1
        (by rw [(processEntityEvent_frame h e').1]; exact hc)
      simp only [processEntityEvents, List.mem_append]
      exact ⟨hrest.1, fun hmem => hmem.elim hstep.2 hrest.2⟩

/-- A batch of intent events none of which names entity `e` leaves every
intent-table entry of `e` untouched. -/
theorem processIntentEvents_avoid (evs : List DropIntentEvent) : ∀ h : HandlerState,
    ∀ {e : Entity}, (∀ ev ∈ evs, ev.entity ≠ e) →
    ∀ c : ComponentId, (processIntentEvents h evs).1.intent_handles (e, c) =
      h.intent_handles (e, c) := by
  induction evs with
  | nil => intro h e _ c; rfl
  | cons ev evs ih =>
      intro h e havoid c
      have hne : ev.entity ≠ e := havoid ev (List.mem_cons_self ev evs)
      have hstep : (processIntentEvent h ev).1.intent_handles (e, c) =
          h.intent_handles (e, c) := by
        rcases processIntentEvent_cases h ev with he | ⟨t, _, _, he⟩
        · rw [he]
        · rw [he]
          exact fset_other _ _ (by intro hk; cases hk; exact hne rfl)
      simp only [processIntentEvents]
      rw [ih (processIntentEvent h ev).1
        (fun ev' hev' => havoid ev' (List.mem_cons_of_mem ev hev')) c, hstep]

/-- A batch of entity events none of which is `e` leaves `e`'s entity-table
entry untouched. -/
theorem processEntityEvents_avoid (es : List Entity) : ∀ h : HandlerState,
    ∀ {e : Entity}, (∀ e' ∈ es, e' ≠ e) →
    (processEntityEvents h es).1.entity_handles e = h.entity_handles e := by
  induction es with
  | nil => intro h e _; rfl
  | cons e' es ih =>
      intro h e havoid
      have hne : e' ≠ e := havoid e' (List.mem_cons_self e' es)
      have hstep : (processEntityEvent h e').1.entity_handles e = h.entity_handles e := by
        rcases processEntityEvent_cases h e' with he | ⟨t, _, _, he⟩
        · rw [he]
        · rw [he]
          exact fset_other _ _ (Ne.symm hne)
      simp only [processEntityEvents]
      rw [ih (processEntityEvent h e').1
        (fun x hx => havoid x (List.mem_cons_of_mem e' hx)), hstep]

/-! ### World-level command lemmas -/

theorem World.applyCmd_nextEntity (w : World) (c : Cmd) :
    (w.applyCmd c).nextEntity = w.nextEntity := by
  cases c <;> simp [World.applyCmd] <;> split <;> rfl

theorem World.applyCmds_nextEntity (cmds : List Cmd) : ∀ w : World,
    (cmds.foldl World.applyCmd w).nextEntity = w.nextEntity := by
  induction cmds with
  | nil => intro w; rfl
  | cons c cmds ih =>
      intro w
      rw [List.foldl_cons, ih, World.applyCmd_nextEntity]

theorem World.applyCmd_despawn_alive (w : World) (e : Entity) :
    (w.applyCmd (Cmd.despawn e)).alive e = false := by
  simp only [World.applyCmd]
  by_cases ha : w.alive e
  · simp [ha, fset]
  · simp only [ha, if_false]
    simpa using ha

theorem World.applyCmd_alive_true (w : World) (c : Cmd) (e : Entity)
    (hc : c ≠ Cmd.despawn e) (ha : w.alive e = true) : (w.applyCmd c).alive e = true := by
  cases c with
  | spawn e' comps =>
      simp only [World.applyCmd, fset]
      split <;> simp [ha]
  | insertMarker e' c' => simp only [World.applyCmd]; split <;> simp [ha]
  | removeMarker e' c' => simp only [World.applyCmd]; split <;> simp [ha]
  | despawn e' =>
      have hne : e ≠ e' := fun hk => hc (by rw [hk])
      simp only [World.applyCmd]
      split
      · simpa [fset_other _ _ hne] using ha
      · exact ha

theorem World.applyCmds_alive_true (cmds : List Cmd) : ∀ w : World, ∀ {e : Entity},
    (∀ c ∈ cmds, c ≠ Cmd.despawn e) → w.alive e = true →
    (cmds.foldl World.applyCmd w).alive e = true := by
  induction cmds with
  | nil => intro w e _ ha; exact ha
  | cons c cmds ih =>
      intro w e hc ha
      rw [List.foldl_cons]
      exact ih _ (fun c' hc' => hc c' (List.mem_cons_of_mem c hc'))
        (World.applyCmd_alive_true w c e (hc c (List.mem_cons_self c cmds)) ha)

theorem World.applyCmd_marker_true (w : World) (c : Cmd) (e : Entity) (ic : ComponentId)
    (h1 : c ≠ Cmd.despawn e) (h2 : c ≠ Cmd.removeMarker e ic)
    (h3 : ∀ l, c ≠ Cmd.spawn e l) (hm : w.markers e ic = true) :
    (w.applyCmd c).markers e ic = true := by
  cases c with
  | spawn e' comps =>
      have hne : e ≠ e' := fun hk => h3 comps (by rw [hk])
      simp only [World.applyCmd]
      simpa [hne] using hm
  | insertMarker e' c' =>
      simp only [World.applyCmd]
      split
      · by_cases hk : e = e' ∧ ic = c' <;> simp [hk, hm]
      · exact hm
  | removeMarker e' c' =>
      have hk : ¬(e = e' ∧ ic = c') := by
        intro hk
        exact h2 (by rw [hk.1, hk.2])
      simp only [World.applyCmd]
      split
      · simpa [hk] using hm
      · exact hm
  | despawn e' =>
      have hne : e ≠ e' := fun hk => h1 (by rw [hk])
      simp only [World.applyCmd]
      split
      · simpa [hne] using hm
      · exact hm

theorem World.applyCmds_marker_true (cmds : List Cmd) : ∀ w : World,
    ∀ {e : Entity} {ic : ComponentId},
    (∀ c ∈ cmds, c ≠ Cmd.despawn e ∧ c ≠ Cmd.removeMarker e ic ∧ ∀ l, c ≠ Cmd.spawn e l) →
    w.markers e ic = true → (cmds.foldl World.applyCmd w).markers e ic = true := by
  induction cmds with
  | nil => intro w e ic _ hm; exact hm
  | cons c cmds ih =>
      intro w e ic hc hm
      have h0 := hc c (List.mem_cons_self c cmds)
      rw [List.foldl_cons]
      exact ih _ (fun c' hc' => hc c' (List.mem_cons_of_mem c hc'))
        (World.applyCmd_marker_true w c e ic h0.1 h0.2.1 h0.2.2 hm)

theorem World.applyCmd_marker_false (w : World) (c : Cmd) (e : Entity) (ic : ComponentId)
    (h2 : c ≠ Cmd.insertMarker e ic) (h3 : ∀ l, c ≠ Cmd.spawn e l)
    (hm : w.markers e ic = false) : (w.applyCmd c).markers e ic = false := by
  cases c with
  | spawn e' comps =>
      have hne : e ≠ e' := fun hk => h3 comps (by rw [hk])
      simp only [World.applyCmd]
      simpa [hne] using hm
  | insertMarker e' c' =>
      have hk : ¬(e = e' ∧ ic = c') := by
        intro hk
        exact h2 (by rw [hk.1, hk.2])
      simp only [World.applyCmd]
      split
      · simpa [hk] using hm
      · exact hm
  | removeMarker e' c' =>
      simp only [World.applyCmd]
      split
      · by_cases hk : e = e' ∧ ic = c' <;> simp [hk, hm]
      · exact hm
  | despawn e' =>
      simp only [World.applyCmd]
      split
      · by_cases hk : e = e' <;> simp [hk, hm]
      · exact hm

theorem World.applyCmds_marker_false (cmds : List Cmd) : ∀ w : World,
    ∀ {e : Entity} {ic : ComponentId},
    (∀ c ∈ cmds, c ≠ Cmd.insertMarker e ic ∧ ∀ l, c ≠ Cmd.spawn e l) →
    w.markers e ic = false → (cmds.foldl World.applyCmd w).markers e ic = false := by
  induction cmds with
  | nil => intro w e ic _ hm; exact hm
  | cons c cmds ih =>
      intro w e ic hc hm
      have h0 := hc c (List.mem_cons_self c cmds)
      rw [List.foldl_cons]
      exact ih _ (fun c' hc' => hc c' (List.mem_cons_of_mem c hc'))
        (World.applyCmd_marker_false w c e ic h0.1 h0.2 hm)

/-! ### Characterizations of the server operations -/

theorem EntityServer.spawn_eq (s : AppState) (reg : TypeId → Option ComponentId)
    (intent : TypeId) (ic : ComponentId) (bundle : List ComponentId)
    (hreg : s.intentRegistry = some reg) (hic : reg intent = some ic) :
    EntityServer.spawn intent bundle s = some
      (⟨s.world.nextEntity, s.handler.nextToken, ic, s.handler.nextToken + 1⟩,
       { s with
         world := { s.world with nextEntity := s.world.nextEntity + 1 },
         handler := { s.handler with
           counts := fset (fset s.handler.counts s.handler.nextToken 1)
             (s.handler.nextToken + 1) 1,
           entity_handles := fset s.handler.entity_handles s.world.nextEntity
             (some s.handler.nextToken),
           intent_handles := fset s.handler.intent_handles
             (s.world.nextEntity, ic) (some (s.handler.nextToken + 1)),
           nextToken := s.handler.nextToken + 2 },
         pending := s.pending ++ [Cmd.spawn s.world.nextEntity (bundle ++ [ic])] }) := by
  simp only [EntityServer.spawn, hreg, hic]

/-- `to_managed` when the entity token is still live and the intent token's
weak entry is present but dead: the entity token is cloned, a fresh intent
token is created and recorded, and a marker insertion is queued. -/
theorem EntityServer.to_managed_live_dead (s : AppState) (reg : TypeId → Option ComponentId)
    (intent : TypeId) (ic : ComponentId) (e : Entity) (tokE tokI : TokenId)
    (hreg : s.intentRegistry = some reg) (hic : reg intent = some ic)
    (hET : s.handler.entity_handles e = some tokE) (hcE : s.handler.counts tokE ≠ 0)
    (hIT : s.handler.intent_handles (e, ic) = some tokI) (hcI : s.handler.counts tokI = 0) :
    EntityServer.to_managed intent e s = some
      (⟨e, tokE, ic, s.handler.nextToken⟩,
       { s with
         handler := { s.handler with
           counts := fset (fset s.handler.counts tokE (s.handler.counts tokE + 1))
             s.handler.nextToken 1,
           intent_handles := fset s.handler.intent_handles (e, ic)
             (some s.handler.nextToken),
           nextToken := s.handler.nextToken + 1 },
         pending := s.pending ++ [Cmd.insertMarker e ic] }) := by
  have hne : tokI ≠ tokE := fun hk => hcE (hk ▸ hcI)
  simp only [EntityServer.to_managed, hreg, hic, HandlerState.upgrade, hET, hIT, if_neg hcE,
    fset_other _ _ hne, hcI, if_pos]

/-- `to_managed` when the entity token is still live and the intent table has
no entry for `(e, ic)` at all. -/
theorem EntityServer.to_managed_live_none (s : AppState) (reg : TypeId → Option ComponentId)
    (intent : TypeId) (ic : ComponentId) (e : Entity) (tokE : TokenId)
    (hreg : s.intentRegistry = some reg) (hic : reg intent = some ic)
    (hET : s.handler.entity_handles e = some tokE) (hcE : s.handler.counts tokE ≠ 0)
    (hIT : s.handler.intent_handles (e, ic) = none) :
    EntityServer.to_managed intent e s = some
      (⟨e, tokE, ic, s.handler.nextToken⟩,
       { s with
         handler := { s.handler with
           counts := fset (fset s.handler.counts tokE (s.handler.counts tokE + 1))
             s.handler.nextToken 1,
           intent_handles := fset s.handler.intent_handles (e, ic)
             (some s.handler.nextToken),
           nextToken := s.handler.nextToken + 1 },
         pending := s.pending ++ [Cmd.insertMarker e ic] }) := by
  simp only [EntityServer.to_managed, hreg, hic, HandlerState.upgrade, hET, hIT, if_neg hcE]

/-- `to_managed` when both weak entries are present but dead: fresh entity and
intent tokens are created and recorded, and a marker insertion is queued. -/
theorem EntityServer.to_managed_dead_dead (s : AppState) (reg : TypeId → Option ComponentId)
    (intent : TypeId) (ic : ComponentId) (e : Entity) (tokE tokI : TokenId)
    (hreg : s.intentRegistry = some reg) (hic : reg intent = some ic)
    (hET : s.handler.entity_handles e = some tokE) (hcE : s.handler.counts tokE = 0)
    (hIT : s.handler.intent_handles (e, ic) = some tokI) (hcI : s.handler.counts tokI = 0)
    (hIlt : tokI ≠ s.handler.nextToken) :
    EntityServer.to_managed intent e s = some
      (⟨e, s.handler.nextToken, ic, s.handler.nextToken + 1⟩,
       { s with
         handler := { s.handler with
           counts := fset (fset s.handler.counts s.handler.nextToken 1)
             (s.handler.nextToken + 1) 1,
           entity_handles := fset s.handler.entity_handles e (some s.handler.nextToken),
           intent_handles := fset s.handler.intent_handles (e, ic)
             (some (s.handler.nextToken + 1)),
           nextToken := s.handler.nextToken + 2 },
         pending := s.pending ++ [Cmd.insertMarker e ic] }) := by
  simp only [EntityServer.to_managed, hreg, hic, HandlerState.upgrade, hET, hIT, hcE, if_pos,
    fset_other _ _ hIlt, hcI]

/-- `to_managed` always succeeds for a registered intent, returns a handle on
the requested entity, and leaves the world, the registries and the component
table untouched. -/
theorem EntityServer.to_managed_some (s : AppState) (reg : TypeId → Option ComponentId)
    (intent : TypeId) (ic : ComponentId) (e : Entity)
    (hreg : s.intentRegistry = some reg) (hic : reg intent = some ic) :
    ∃ hd s', EntityServer.to_managed intent e s = some (hd, s') ∧ hd.entity = e ∧
      hd.intent_component = ic ∧ s'.world = s.world ∧ s'.registry = s.registry ∧
      s'.intentRegistry = s.intentRegistry ∧ s'.components = s.components ∧
      s'.nextComponentId = s.nextComponentId := by
  simp only [EntityServer.to_managed, hreg, hic]
  exact ⟨_, _, rfl, rfl, rfl, rfl, rfl, rfl, rfl, rfl⟩

/-- `get_asset` on a key already in the registry takes the `to_managed` path:
it returns a handle on the registered entity and does not touch the registry
or the world. -/
theorem EntityAssetServer.get_asset_present (s : AppState) (reg : TypeId → Option ComponentId)
    (intent : TypeId) (ic : ComponentId) (idMarker : ComponentId) (k : Nat) (ent : Entity)
    (hreg : s.intentRegistry = some reg) (hic : reg intent = some ic)
    (hr : s.registry k = some ent) :
    ∃ h1 s1, EntityAssetServer.get_asset intent idMarker k s = some (h1, s1) ∧
      h1.entity = ent ∧ s1.registry = s.registry ∧ s1.world = s.world ∧
      s1.intentRegistry = s.intentRegistry := by
  rcases EntityServer.to_managed_some s reg intent ic ent hreg hic with
    ⟨h1, s1, hts, he, _, hw, hrg, hir, _⟩
  refine ⟨h1, s1, ?_, he, hrg, hw, hir⟩
  simp only [EntityAssetServer.get_asset, hr]
  exact hts

/-- `get_asset` on an absent key takes the spawn path: it returns a handle on
the fresh entity `s.world.nextEntity` and records `k →` that entity. -/
theorem EntityAssetServer.get_asset_absent (s : AppState) (reg : TypeId → Option ComponentId)
    (intent : TypeId) (ic : ComponentId) (idMarker : ComponentId) (k : Nat)
    (hreg : s.intentRegistry = some reg) (hic : reg intent = some ic)
    (hr : s.registry k = none) :
    ∃ s1, EntityAssetServer.get_asset intent idMarker k s = some
        (⟨s.world.nextEntity, s.handler.nextToken, ic, s.handler.nextToken + 1⟩, s1) ∧
      s1.registry = fset s.registry k (some s.world.nextEntity) ∧
      s1.world.nextEntity = s.world.nextEntity + 1 ∧
      s1.intentRegistry = s.intentRegistry := by
  simp only [EntityAssetServer.get_asset, hr,
    EntityServer.spawn_eq s reg intent ic [idMarker] hreg hic]
  exact ⟨_, rfl, rfl, rfl, rfl⟩

theorem World.applyCmd_insertMarker_alive (w : World) (e e' : Entity) (c : ComponentId) :
    (w.applyCmd (Cmd.insertMarker e' c)).alive e = w.alive e := by
  simp only [World.applyCmd]
  split <;> rfl

theorem World.applyCmd_insertMarker_marker (w : World) (e : Entity) (c : ComponentId)
    (ha : w.alive e = true) : (w.applyCmd (Cmd.insertMarker e c)).markers e c = true := by
  simp [World.applyCmd, ha]

theorem World.applyCmd_removeMarker_marker (w : World) (e : Entity) (c : ComponentId)
    (ha : w.alive e = true) : (w.applyCmd (Cmd.removeMarker e c)).markers e c = false := by
  simp [World.applyCmd, ha]

/-- If the reconciler's command batch ends with `despawn e`, the update leaves
`e` dead. -/
theorem update_alive_of_final_despawn (s : AppState) (e : Entity)
    (hl : ∃ l, (EntityHandler.execute s.handler).2 = l ++ [Cmd.despawn e]) :
    s.update.world.alive e = false := by
  rcases hl with ⟨l, hl⟩
  show ((s.pending ++ (EntityHandler.execute s.handler).2).foldl
    World.applyCmd s.world).alive e = false
  rw [hl, ← List.append_assoc, List.foldl_append]
  exact World.applyCmd_despawn_alive _ e

/-- When the last entity-drop event in the queue names `e`, no earlier
entity-drop event does, and `e`'s weak entry is dead, `execute` emits
`despawn e` as its final command. -/
theorem execute_final_despawn (h : HandlerState) (e : Entity) (tokE : TokenId)
    (q : List Entity) (hdq : h.drop_entity_queue = q ++ [e]) (hq : ∀ e' ∈ q, e' ≠ e)
    (hET : h.entity_handles e = some tokE) (hcE : h.counts tokE = 0) :
    ∃ l, (EntityHandler.execute h).2 = l ++ [Cmd.despawn e] := by
  have hA := processIntentEvents_frame h.drop_intent_queue { h with drop_intent_queue := [] }
  have hAq : (processIntentEvents { h with drop_intent_queue := [] }
      h.drop_intent_queue).1.drop_entity_queue = q ++ [e] := hA.2.2.1.trans hdq
  have hYe : (processEntityEvents
      { (processIntentEvents { h with drop_intent_queue := [] } h.drop_intent_queue).1 with
        drop_entity_queue := [] } q).1.entity_handles e = some tokE :=
    (processEntityEvents_avoid q _ hq).trans ((congrFun hA.2.1 e).trans hET)
  have hYc : (processEntityEvents
      { (processIntentEvents { h with drop_intent_queue := [] } h.drop_intent_queue).1 with
        drop_entity_queue := [] } q).1.counts tokE = 0 :=
    (congrFun (processEntityEvents_frame q _).1 tokE).trans ((congrFun hA.1 tokE).trans hcE)
  have hfin : (processEntityEvents (processEntityEvents
      { (processIntentEvents { h with drop_intent_queue := [] } h.drop_intent_queue).1 with
        drop_entity_queue := [] } q).1 [e]).2 = [Cmd.despawn e] := by
    simp [processEntityEvents, processEntityEvent, hYe, hYc]
  have hmain : (EntityHandler.execute h).2 =
      ((processIntentEvents { h with drop_intent_queue := [] } h.drop_intent_queue).2 ++
       (processEntityEvents
         { (processIntentEvents { h with drop_intent_queue := [] } h.drop_intent_queue).1 with
           drop_entity_queue := [] } q).2) ++ [Cmd.despawn e] := by
    show (processIntentEvents { h with drop_intent_queue := [] } h.drop_intent_queue).2 ++
      (processEntityEvents
        { (processIntentEvents { h with drop_intent_queue := [] } h.drop_intent_queue).1 with
          drop_entity_queue := [] }
        (processIntentEvents { h with drop_intent_queue := [] }
          h.drop_intent_queue).1.drop_entity_queue).2 = _
    rw [hAq, processEntityEvents_append, hfin]
    simp [List.append_assoc]
  exact ⟨_, hmain⟩

/-- Re-validation across a whole update: if both weak entries for `(e, ic)`
are live at reconciliation time, the update neither despawns `e` nor removes
the `ic` marker (provided the already-pending commands do not either). -/
theorem update_preserves_live_key (s : AppState) (e : Entity) (ic : ComponentId)
    (tokE tokI : TokenId)
    (hET : s.handler.entity_handles e = some tokE) (hcE : s.handler.counts tokE ≠ 0)
    (hIT : s.handler.intent_handles (e, ic) = some tokI) (hcI : s.handler.counts tokI ≠ 0)
    (hp : ∀ c ∈ s.pending, c ≠ Cmd.despawn e ∧ c ≠ Cmd.removeMarker e ic ∧
      ∀ l, c ≠ Cmd.spawn e l)
    (halive : s.world.alive e = true) (hmark : s.world.markers e ic = true) :
    s.update.world.alive e = true ∧ s.update.world.markers e ic = true := by
  have hAframe := processIntentEvents_frame s.handler.drop_intent_queue
    { s.handler with drop_intent_queue := [] }
  have hlive := processIntentEvents_live s.handler.drop_intent_queue
    { s.handler with drop_intent_queue := [] } hIT hcI
  have hET' : (processIntentEvents { s.handler with drop_intent_queue := [] }
      s.handler.drop_intent_queue).1.entity_handles e = some tokE :=
    (congrFun hAframe.2.1 e).trans hET
  have hcE' : (processIntentEvents { s.handler with drop_intent_queue := [] }
      s.handler.drop_intent_queue).1.counts tokE ≠ 0 := by
    rw [congrFun hAframe.1 tokE]
    exact hcE
  have hlive2 := processEntityEvents_live
    (processIntentEvents { s.handler with drop_intent_queue := [] }
      s.handler.drop_intent_queue).1.drop_entity_queue
    { (processIntentEvents { s.handler with drop_intent_queue := [] }
        s.handler.drop_intent_queue).1 with drop_entity_queue := [] } hET' hcE'
  have hcond : ∀ c ∈ s.pending ++ (EntityHandler.execute s.handler).2,
      c ≠ Cmd.despawn e ∧ c ≠ Cmd.removeMarker e ic ∧ ∀ l, c ≠ Cmd.spawn e l := by
    intro c hc
    rcases List.mem_append.1 hc with hc | hc
    · exact hp c hc
    · rcases List.mem_append.1 hc with hc | hc
      · rcases processIntentEvents_shape _ _ c hc with ⟨ev, _, hcv⟩
        subst hcv
        refine ⟨by simp, ?_, by simp⟩
        intro hck
        rw [hck] at hc
        exact hlive.2 hc
      · rcases processEntityEvents_shape _ _ c hc with ⟨e', _, hcv⟩
        subst hcv
        refine ⟨?_, by simp, by simp⟩
        intro hck
        rw [hck] at hc
        exact hlive2.2 hc
  constructor
  · show ((s.pending ++ (EntityHandler.execute s.handler).2).foldl
      World.applyCmd s.world).alive e = true
    exact World.applyCmds_alive_true _ _ (fun c hc => (hcond c hc).1) halive
  · show ((s.pending ++ (EntityHandler.execute s.handler).2).foldl
      World.applyCmd s.world).markers e ic = true
    exact World.applyCmds_marker_true _ _ hcond hmark

/-- When the last intent-drop event in the queue names `(e, ic)`, no earlier
intent-drop event names entity `e`, and the `(e, ic)` weak entry is dead, the
update removes the `ic` marker from the (live) entity `e`. -/
theorem update_removes_dead_intent (s : AppState) (e : Entity) (ic : ComponentId)
    (tokI : TokenId) (qi : List DropIntentEvent)
    (hiq : s.handler.drop_intent_queue = qi ++ [DropIntentEvent.mk e ic])
    (hqi : ∀ ev ∈ qi, ev.entity ≠ e)
    (hIT : s.handler.intent_handles (e, ic) = some tokI) (hcI : s.handler.counts tokI = 0)
    (hpend : s.pending = []) (halive : s.world.alive e = true) :
    s.update.world.markers e ic = false := by
  have hA := processIntentEvents_frame qi { s.handler with drop_intent_queue := [] }
  have hAi : (processIntentEvents { s.handler with drop_intent_queue := [] }
      qi).1.intent_handles (e, ic) = some tokI :=
    (processIntentEvents_avoid qi _ hqi ic).trans hIT
  have hAc : (processIntentEvents { s.handler with drop_intent_queue := [] }
      qi).1.counts tokI = 0 := (congrFun hA.1 tokI).trans hcI
  have hfin : (processIntentEvents (processIntentEvents
      { s.handler with drop_intent_queue := [] } qi).1 [DropIntentEvent.mk e ic]).2 =
      [Cmd.removeMarker e ic] := by
    simp [processIntentEvents, processIntentEvent, hAi, hAc]
  show ((s.pending ++ (EntityHandler.execute s.handler).2).foldl
    World.applyCmd s.world).markers e ic = false
  rw [hpend, List.nil_append]
  show (((processIntentEvents { s.handler with drop_intent_queue := [] }
      s.handler.drop_intent_queue).2 ++ _).foldl World.applyCmd s.world).markers e ic = false
  rw [hiq, processIntentEvents_append, hfin]
  rw [List.append_assoc, List.foldl_append]
  have halive1 : ((processIntentEvents { s.handler with drop_intent_queue := [] }
      qi).2.foldl World.applyCmd s.world).alive e = true := by
    refine World.applyCmds_alive_true _ _ ?_ halive
    intro c hc
    rcases processIntentEvents_shape _ _ c hc with ⟨ev, _, hcv⟩
    subst hcv
    simp
  rw [List.foldl_append]
  refine World.applyCmds_marker_false _ _ ?_ ?_
  · intro c hc
    rcases processEntityEvents_shape _ _ c hc with ⟨e', _, hcv⟩
    subst hcv
    exact ⟨by simp, by simp⟩
  · show (List.foldl World.applyCmd _ [Cmd.removeMarker e ic]).markers e ic = false
    exact World.applyCmd_removeMarker_marker _ e ic halive1

theorem World.applyCmd_spawn_marker (w : World) (e : Entity) (comps : List ComponentId)
    (c : ComponentId) (hc : c ∈ comps) :
    (w.applyCmd (Cmd.spawn e comps)).markers e c = true := by
  simp [World.applyCmd]
  exact hc

theorem World.applyCmd_insertMarker_marker_other (w : World) (e e' : Entity)
    (c c' : ComponentId) (h : ¬(e = e' ∧ c = c')) :
    (w.applyCmd (Cmd.insertMarker e' c')).markers e c = w.markers e c := by
  simp only [World.applyCmd]
  split
  · show (if e = e' ∧ c = c' then true else w.markers e c) = w.markers e c
    rw [if_neg h]
  · rfl

/-- Dropping a handle whose entity token has strong count 1 (the last handle),
with no other entity-drop event for that entity pending, despawns the entity
at the next update. -/
theorem drop_last_update_despawns (s : AppState) (hd : EntityHandle)
    (hET : s.handler.entity_handles hd.entity = some hd.entityToken)
    (hcE : s.handler.counts hd.entityToken = 1)
    (hne : hd.intentToken ≠ hd.entityToken)
    (hq : ∀ e' ∈ s.handler.drop_entity_queue, e' ≠ hd.entity) :
    (hd.dropHandle s).update.world.alive hd.entity = false := by
  apply update_alive_of_final_despawn
  refine execute_final_despawn _ hd.entity hd.entityToken s.handler.drop_entity_queue ?_ hq
    hET ?_
  · show (if s.handler.counts hd.entityToken = 1 then
      s.handler.drop_entity_queue ++ [hd.entity] else s.handler.drop_entity_queue) = _
    rw [if_pos hcE]
  · show fset (fset s.handler.counts hd.entityToken (s.handler.counts hd.entityToken - 1))
      hd.intentToken _ hd.entityToken = 0
    rw [fset_other _ _ (Ne.symm hne), fset_same, hcE]

/-- A whole `execute` keeps both weak entries of a live `(e, ic)` key and all
strong counts, and drains both queues. -/
theorem execute_preserves_live (h : HandlerState) (e : Entity) (ic : ComponentId)
    (tokE tokI : TokenId)
    (hET : h.entity_handles e = some tokE) (hcE : h.counts tokE ≠ 0)
    (hIT : h.intent_handles (e, ic) = some tokI) (hcI : h.counts tokI ≠ 0) :
    (EntityHandler.execute h).1.entity_handles e = some tokE ∧
    (EntityHandler.execute h).1.intent_handles (e, ic) = some tokI ∧
    (EntityHandler.execute h).1.counts = h.counts ∧
    (EntityHandler.execute h).1.drop_entity_queue = [] ∧
    (EntityHandler.execute h).1.drop_intent_queue = [] := by
  have hA := processIntentEvents_frame h.drop_intent_queue { h with drop_intent_queue := [] }
  have hILive := processIntentEvents_live h.drop_intent_queue
    { h with drop_intent_queue := [] } hIT hcI
  have hET' : (processIntentEvents { h with drop_intent_queue := [] }
      h.drop_intent_queue).1.entity_handles e = some tokE :=
    (congrFun hA.2.1 e).trans hET
  have hcE' : (processIntentEvents { h with drop_intent_queue := [] }
      h.drop_intent_queue).1.counts tokE ≠ 0 := by
    rw [congrFun hA.1 tokE]
    exact hcE
  have hB := processEntityEvents_frame
    (processIntentEvents { h with drop_intent_queue := [] }
      h.drop_intent_queue).1.drop_entity_queue
    { (processIntentEvents { h with drop_intent_queue := [] }
        h.drop_intent_queue).1 with drop_entity_queue := [] }
  have hELive := processEntityEvents_live
    (processIntentEvents { h with drop_intent_queue := [] }
      h.drop_intent_queue).1.drop_entity_queue
    { (processIntentEvents { h with drop_intent_queue := [] }
        h.drop_intent_queue).1 with drop_entity_queue := [] } hET' hcE'
  refine ⟨hELive.1, ?_, ?_, ?_, ?_⟩
  · exact (congrFun hB.2.1 (e, ic)).trans hILive.1
  · exact hB.1.trans hA.1
  · exact hB.2.2.1
  · exact hB.2.2.2.trans hA.2.2.2

/-- `to_managed` after the `(e, ic)` intent token went dead: whatever the
state of the entity token (still live, or also dead), both weak entries end
up live, a marker insertion is queued, and nothing else changes. -/
theorem EntityServer.to_managed_reacquire (s : AppState) (reg : TypeId → Option ComponentId)
    (intent : TypeId) (ic : ComponentId) (e : Entity) (tokE tokI : TokenId)
    (hreg : s.intentRegistry = some reg) (hic : reg intent = some ic)
    (hET : s.handler.entity_handles e = some tokE) (hElt : tokE < s.handler.nextToken)
    (hIT : s.handler.intent_handles (e, ic) = some tokI) (hcI : s.handler.counts tokI = 0)
    (hIlt : tokI < s.handler.nextToken) :
    ∃ hd2 s2, EntityServer.to_managed intent e s = some (hd2, s2) ∧
      (∃ tE, s2.handler.entity_handles e = some tE ∧ s2.handler.counts tE ≠ 0) ∧
      (∃ tI, s2.handler.intent_handles (e, ic) = some tI ∧ s2.handler.counts tI ≠ 0) ∧
      s2.handler.drop_intent_queue = s.handler.drop_intent_queue ∧
      s2.handler.drop_entity_queue = s.handler.drop_entity_queue ∧
      s2.world = s.world ∧
      s2.pending = s.pending ++ [Cmd.insertMarker e ic] := by
  by_cases hcE : s.handler.counts tokE = 0
  · rw [EntityServer.to_managed_dead_dead s reg intent ic e tokE tokI hreg hic hET hcE hIT hcI
      (Nat.ne_of_lt hIlt)]
    refine ⟨_, _, rfl, ⟨s.handler.nextToken, fset_same _ _ _, ?_⟩,
      ⟨s.handler.nextToken + 1, fset_same _ _ _, ?_⟩, rfl, rfl, rfl, rfl⟩
    · show fset (fset s.handler.counts s.handler.nextToken 1) (s.handler.nextToken + 1) 1
        s.handler.nextToken ≠ 0
      rw [fset_other _ _ (Nat.ne_of_lt (Nat.lt_succ_self _)), fset_same]
      exact Nat.one_ne_zero
    · show fset (fset s.handler.counts s.handler.nextToken 1) (s.handler.nextToken + 1) 1
        (s.handler.nextToken + 1) ≠ 0
      rw [fset_same]
      exact Nat.one_ne_zero
  · rw [EntityServer.to_managed_live_dead s reg intent ic e tokE tokI hreg hic hET hcE hIT hcI]
    refine ⟨_, _, rfl, ⟨tokE, hET, ?_⟩, ⟨s.handler.nextToken, fset_same _ _ _, ?_⟩,
      rfl, rfl, rfl, rfl⟩
    · show fset (fset s.handler.counts tokE (s.handler.counts tokE + 1))
        s.handler.nextToken 1 tokE ≠ 0
      rw [fset_other _ _ (Nat.ne_of_lt hElt), fset_same]
      exact Nat.succ_ne_zero _
    · show fset (fset s.handler.counts tokE (s.handler.counts tokE + 1))
        s.handler.nextToken 1 s.handler.nextToken ≠ 0
      rw [fset_same]
      exact Nat.one_ne_zero

/-- A flush followed by an `update` never changes the `EntityRegistry`, the
`IntentComponentsRegistry`, or the entity allocator. -/
theorem AppState.flush_update_frame (s : AppState) :
    s.flush.update.registry = s.registry ∧
    s.flush.update.intentRegistry = s.intentRegistry ∧
    s.flush.update.world.nextEntity = s.world.nextEntity := by
  refine ⟨rfl, rfl, ?_⟩
  show (List.foldl World.applyCmd (List.foldl World.applyCmd s.world s.pending) _).nextEntity = _
  rw [World.applyCmds_nextEntity, World.applyCmds_nextEntity]

/-! ### Claim theorems -/

/-- **C4**: within a single `EntityHandler::execute`, all pending intent-drop
events are drained and processed before any entity-drop event: the emitted
command list splits into marker removals (from the intent loop) followed by
despawns (from the entity loop), and both queues are fully drained. -/
theorem execute_intent_drops_before_entity_drops (h : HandlerState) :
    ∃ l1 l2, (EntityHandler.execute h).2 = l1 ++ l2 ∧
      (∀ c ∈ l1, ∃ e ic, c = Cmd.removeMarker e ic) ∧
      (∀ c ∈ l2, ∃ e, c = Cmd.despawn e) ∧
      (EntityHandler.execute h).1.drop_intent_queue = [] ∧
      (EntityHandler.execute h).1.drop_entity_queue = [] := by
  refine ⟨_, _, rfl, ?_, ?_, ?_, ?_⟩
  · intro c hc
    rcases processIntentEvents_shape _ _ c hc with ⟨ev, _, hc'⟩
    exact ⟨ev.entity, ev.intent_component, hc'⟩
  · intro c hc
    rcases processEntityEvents_shape _ _ c hc with ⟨e, _, hc'⟩
    exact ⟨e, hc'⟩
  · show (processEntityEvents _ _).1.drop_intent_queue = []
    rw [(processEntityEvents_frame _ _).2.2.2]
    exact (processIntentEvents_frame _ _).2.2.2
  · show (processEntityEvents _ _).1.drop_entity_queue = []
    rw [(processEntityEvents_frame _ _).2.2.1]

/-- **C5**: reconciliation is idempotent against duplicate drop events for the
same key: processing the same intent-drop (resp. entity-drop) event a second
time, right after the first processing, issues no commands and leaves the
handler state unchanged. -/
theorem execute_duplicate_drop_events_noop (h : HandlerState) (ev : DropIntentEvent)
    (e : Entity) :
    processIntentEvent (processIntentEvent h ev).1 ev = ((processIntentEvent h ev).1, []) ∧
    processEntityEvent (processEntityEvent h e).1 e = ((processEntityEvent h e).1, []) := by
  constructor
  · rcases processIntentEvent_cases h ev with hc | ⟨t, ht, hct, hc⟩
    · rw [hc]
      simpa using hc
    · rw [hc]
      simp [processIntentEvent]
  · rcases processEntityEvent_cases h e with hc | ⟨t, ht, hct, hc⟩
    · rw [hc]
      simpa using hc
    · rw [hc]
      simp [processEntityEvent]

/-- **C7**: with the `IntentComponentsRegistry` resource present, `spawn` and
`to_managed` fail (panic, modelled as `none`) exactly when the intent was
never registered; for every registered intent both succeed and return a
handle. -/
theorem unregistered_intent_panics (s : AppState) (reg : TypeId → Option ComponentId)
    (intent : TypeId) (bundle : List ComponentId) (entity : Entity)
    (hreg : s.intentRegistry = some reg) :
    (EntityServer.spawn intent bundle s = none ↔ reg intent = none) ∧
    (EntityServer.to_managed intent entity s = none ↔ reg intent = none) ∧
    (∀ ic, reg intent = some ic →
      (EntityServer.spawn intent bundle s).isSome ∧
      (EntityServer.to_managed intent entity s).isSome) := by
  refine ⟨?_, ?_, ?_⟩
  · unfold EntityServer.spawn
    simp only [hreg]
    cases hi : reg intent <;> simp [hi]
  · unfold EntityServer.to_managed
    simp only [hreg]
    cases hi : reg intent <;> simp [hi]
  · intro ic hic
    constructor
    · rw [EntityServer.spawn_eq s reg intent ic bundle hreg hic]
      rfl
    · rcases EntityServer.to_managed_some s reg intent ic entity hreg hic with ⟨hd, s', hs, _⟩
      rw [hs]
      rfl

/-- Witness for C7 at a concrete state: intent `99` is unregistered (both
operations panic), intent `3` is registered (both succeed). -/
theorem unregistered_intent_panics_witness :
    ((EntityServer.spawn 99 [] wStateEmpty = none ↔ wReg 99 = none) ∧
     (EntityServer.to_managed 99 0 wStateEmpty = none ↔ wReg 99 = none) ∧
     (∀ ic, wReg 99 = some ic →
       (EntityServer.spawn 99 [] wStateEmpty).isSome ∧
       (EntityServer.to_managed 99 0 wStateEmpty).isSome)) ∧
    ((EntityServer.spawn 3 [] wStateEmpty = none ↔ wReg 3 = none) ∧
     (EntityServer.to_managed 3 0 wStateEmpty = none ↔ wReg 3 = none) ∧
     (∀ ic, wReg 3 = some ic →
       (EntityServer.spawn 3 [] wStateEmpty).isSome ∧
       (EntityServer.to_managed 3 0 wStateEmpty).isSome)) :=
  ⟨unregistered_intent_panics wStateEmpty wReg 99 [] 0 rfl,
   unregistered_intent_panics wStateEmpty wReg 3 [] 0 rfl⟩

/-- **C8**: when an entity claims an identity key already present in the
`Registry`, the insert observer panics (modelled as `none`) instead of
overwriting or ignoring the collision. -/
theorem duplicate_identity_registration_panics (registry : Nat → Option Entity)
    (val : Entity → Option Nat) (v : Nat) (e1 e2 : Entity)
    (hv : registry v = some e1) (hval : val e2 = some v) (_hne : e2 ≠ e1) :
    Registry.on_component_inserted registry e2 val = none := by
  simp only [Registry.on_component_inserted, hval, hv]

/-- Witness for C8: entity `6` inserting value `2` already claimed by entity
`4` panics. -/
theorem duplicate_identity_registration_panics_witness :
    Registry.on_component_inserted wRegistryMap 6 wValQuery = none :=
  duplicate_identity_registration_panics wRegistryMap wValQuery 2 4 6 rfl rfl (by decide)

/-- **C9**: no core operation removes an `EntityRegistry` entry: a mapping
`k → e` survives `spawn`, `to_managed`, `get_asset` and a full
`EntityHandler::execute` cycle (`AppState.update`), independently of whether
`e` is still alive. -/
theorem entity_registry_entries_persist (s : AppState) (k : Nat) (e : Entity)
    (intent : TypeId) (bundle : List ComponentId) (ent : Entity) (idMarker : ComponentId)
    (kid : Nat) (hk : s.registry k = some e) :
    (∀ hd s', EntityServer.spawn intent bundle s = some (hd, s') → s'.registry k = some e) ∧
    (∀ hd s', EntityServer.to_managed intent ent s = some (hd, s') →
        s'.registry k = some e) ∧
    (∀ hd s', EntityAssetServer.get_asset intent idMarker kid s = some (hd, s') →
        s'.registry k = some e) ∧
    s.update.registry k = some e := by
  have hspawn : ∀ (s0 : AppState) (bundle0 : List ComponentId) (hd : EntityHandle)
      (s' : AppState), s0.registry k = some e →
      EntityServer.spawn intent bundle0 s0 = some (hd, s') → s'.registry k = some e := by
    intro s0 bundle0 hd s' hk0 hsp
    unfold EntityServer.spawn at hsp
    cases hr : s0.intentRegistry with
    | none => rw [hr] at hsp; cases hsp
    | some reg =>
        rw [hr] at hsp
        cases hi : reg intent with
        | none =>
            simp only [hi] at hsp
            exact Option.noConfusion hsp
        | some ic =>
            simp only [hi, Option.some.injEq, Prod.mk.injEq] at hsp
            rw [← hsp.2]
            exact hk0
  have hman : ∀ (s0 : AppState) (ent0 : Entity) (hd : EntityHandle) (s' : AppState),
      s0.registry k = some e →
      EntityServer.to_managed intent ent0 s0 = some (hd, s') → s'.registry k = some e := by
    intro s0 ent0 hd s' hk0 hsp
    unfold EntityServer.to_managed at hsp
    cases hr : s0.intentRegistry with
    | none => rw [hr] at hsp; cases hsp
    | some reg =>
        rw [hr] at hsp
        cases hi : reg intent with
        | none =>
            simp only [hi] at hsp
            exact Option.noConfusion hsp
        | some ic =>
            simp only [hi, Option.some.injEq, Prod.mk.injEq] at hsp
            rw [← hsp.2]
            exact hk0
  refine ⟨fun hd s' => hspawn s bundle hd s' hk, fun hd s' => hman s ent hd s' hk, ?_, hk⟩
  intro hd s' hga
  unfold EntityAssetServer.get_asset at hga
  cases hr : s.registry kid with
  | some ent1 =>
      rw [hr] at hga
      exact hman s ent1 hd s' hk hga
  | none =>
      rw [hr] at hga
      cases hsp : EntityServer.spawn intent [idMarker] s with
      | none => rw [hsp] at hga; cases hga
      | some r =>
          rw [hsp] at hga
          simp only [Option.some.injEq, Prod.mk.injEq] at hga
          have hkne : k ≠ kid := by
            intro hkk
            rw [hkk, hr] at hk
            cases hk
          rw [← hga.2]
          show fset r.2.registry kid (some r.1.entity) k = some e
          rw [fset_other _ _ hkne]
          exact hspawn s [idMarker] r.1 r.2 hk hsp

/-- Witness for C9: the pre-existing mapping `1 → 9` of `wStateReg` survives
all four operations. -/
theorem entity_registry_entries_persist_witness :
    (∀ hd s', EntityServer.spawn 3 [] wStateReg = some (hd, s') → s'.registry 1 = some 9) ∧
    (∀ hd s', EntityServer.to_managed 3 0 wStateReg = some (hd, s') →
        s'.registry 1 = some 9) ∧
    (∀ hd s', EntityAssetServer.get_asset 3 11 2 wStateReg = some (hd, s') →
        s'.registry 1 = some 9) ∧
    wStateReg.update.registry 1 = some 9 :=
  entity_registry_entries_persist wStateReg 1 9 3 [] 0 11 2 rfl

/-- **C1**: reacquire-before-reconcile safety: dropping the last handle for
`(entity, intent)` (enqueueing the drop events) and then reacquiring the same
pair via `to_managed` before the reconciler runs results in the next update
removing neither the intent marker nor the entity. -/
theorem reacquire_before_reconcile_preserves (s : AppState)
    (reg : TypeId → Option ComponentId) (intent : TypeId) (hd : EntityHandle)
    (hreg : s.intentRegistry = some reg) (hic : reg intent = some hd.intent_component)
    (hET : s.handler.entity_handles hd.entity = some hd.entityToken)
    (_hcE : 0 < s.handler.counts hd.entityToken)
    (hElt : hd.entityToken < s.handler.nextToken)
    (hIT : s.handler.intent_handles (hd.entity, hd.intent_component) = some hd.intentToken)
    (hcI : s.handler.counts hd.intentToken = 1)
    (hIlt : hd.intentToken < s.handler.nextToken)
    (hne : hd.entityToken ≠ hd.intentToken)
    (halive : s.world.alive hd.entity = true)
    (_hmark : s.world.markers hd.entity hd.intent_component = true)
    (hpend : s.pending = []) :
    ∃ hd2 s2, EntityServer.to_managed intent hd.entity (hd.dropHandle s) = some (hd2, s2) ∧
      s2.flush.update.world.alive hd.entity = true ∧
      s2.flush.update.world.markers hd.entity hd.intent_component = true := by
  have hcI3 : (hd.dropHandle s).handler.counts hd.intentToken = 0 := by
    show fset (fset s.handler.counts hd.entityToken (s.handler.counts hd.entityToken - 1))
      hd.intentToken _ hd.intentToken = 0
    rw [fset_same]
    show fset s.handler.counts hd.entityToken (s.handler.counts hd.entityToken - 1)
      hd.intentToken - 1 = 0
    rw [fset_other _ _ (Ne.symm hne), hcI]
  rcases EntityServer.to_managed_reacquire (hd.dropHandle s) reg intent hd.intent_component
      hd.entity hd.entityToken hd.intentToken hreg hic hET hElt hIT hcI3 hIlt with
    ⟨hd2, s2, hts, ⟨tE, hE1, hE2⟩, ⟨tI, hI1, hI2⟩, hqI, hqE, hw, hpend2⟩
  refine ⟨hd2, s2, hts, ?_⟩
  have hwa : s2.flush.world.alive hd.entity = true := by
    show (List.foldl World.applyCmd s2.world s2.pending).alive hd.entity = true
    rw [hpend2, show (hd.dropHandle s).pending = ([] : List Cmd) from hpend,
      List.nil_append]
    show (s2.world.applyCmd (Cmd.insertMarker hd.entity hd.intent_component)).alive
      hd.entity = true
    rw [World.applyCmd_insertMarker_alive, hw]
    exact halive
  have hwm : s2.flush.world.markers hd.entity hd.intent_component = true := by
    show (List.foldl World.applyCmd s2.world s2.pending).markers hd.entity
      hd.intent_component = true
    rw [hpend2, show (hd.dropHandle s).pending = ([] : List Cmd) from hpend,
      List.nil_append]
    show (s2.world.applyCmd (Cmd.insertMarker hd.entity hd.intent_component)).markers
      hd.entity hd.intent_component = true
    apply World.applyCmd_insertMarker_marker
    rw [hw]
    exact halive
  exact update_preserves_live_key s2.flush hd.entity hd.intent_component tE tI hE1 hE2 hI1 hI2
    (fun c hc => absurd hc (List.not_mem_nil c)) hwa hwm

/-- Witness for C1: entity `5` with its last handle under intent component `7`
dropped and reacquired before the update; both marker and entity survive. -/
theorem reacquire_before_reconcile_preserves_witness :
    ∃ hd2 s2, EntityServer.to_managed 3 wHandle.entity (wHandle.dropHandle wStateLive) =
        some (hd2, s2) ∧
      s2.flush.update.world.alive wHandle.entity = true ∧
      s2.flush.update.world.markers wHandle.entity wHandle.intent_component = true :=
  reacquire_before_reconcile_preserves wStateLive wReg 3 wHandle rfl rfl rfl (by decide)
    (by decide) rfl (by decide) (by decide) (by decide) (by decide) (by decide) rfl

/-- **C2**: single-reference despawn: an entity spawned with exactly one
handle is despawned by the reconciliation cycle following the drop of that
handle, so a subsequent lookup fails. -/
theorem single_handle_drop_despawns (s : AppState) (reg : TypeId → Option ComponentId)
    (intent : TypeId) (ic : ComponentId) (bundle : List ComponentId)
    (hreg : s.intentRegistry = some reg) (hic : reg intent = some ic)
    (hq : ∀ e' ∈ s.handler.drop_entity_queue, e' < s.world.nextEntity) :
    ∃ hd s1, EntityServer.spawn intent bundle s = some (hd, s1) ∧
      hd.entity = s.world.nextEntity ∧
      (hd.dropHandle s1.flush).update.world.alive s.world.nextEntity = false := by
  refine ⟨_, _, EntityServer.spawn_eq s reg intent ic bundle hreg hic, rfl, ?_⟩
  apply drop_last_update_despawns
  · exact fset_same _ _ _
  · show fset (fset s.handler.counts s.handler.nextToken 1) (s.handler.nextToken + 1) 1
      s.handler.nextToken = 1
    rw [fset_other _ _ (Nat.ne_of_lt (Nat.lt_succ_self _)), fset_same]
  · exact Nat.succ_ne_self _
  · intro e' he'
    exact Nat.ne_of_lt (hq e' he')

/-- Witness for C2: spawning in the fresh state and dropping the only handle
despawns entity `0` at the next update. -/
theorem single_handle_drop_despawns_witness :
    ∃ hd s1, EntityServer.spawn 3 [] wStateEmpty = some (hd, s1) ∧
      hd.entity = wStateEmpty.world.nextEntity ∧
      (hd.dropHandle s1.flush).update.world.alive wStateEmpty.world.nextEntity = false :=
  single_handle_drop_despawns wStateEmpty wReg 3 7 [] rfl rfl
    (fun e' he' => absurd he' (List.not_mem_nil e'))

/-- Dropping the intent-A handle of an entity also claimed under intent B
(entity token still shared, count back to 1): the next update removes only
marker A and keeps the entity with marker B; dropping the B-handle afterwards
and updating again despawns the entity. -/
theorem drop_one_of_two_intents (s3 : AppState) (e : Entity) (cA cB : ComponentId)
    (tE tA tB : TokenId)
    (hET : s3.handler.entity_handles e = some tE)
    (hcE : s3.handler.counts tE = 1)
    (hIA : s3.handler.intent_handles (e, cA) = some tA)
    (hcA : s3.handler.counts tA = 0)
    (hIB : s3.handler.intent_handles (e, cB) = some tB)
    (hcB : s3.handler.counts tB = 1)
    (htBE : tB ≠ tE)
    (hiq : ∃ qi, s3.handler.drop_intent_queue = qi ++ [DropIntentEvent.mk e cA] ∧
      ∀ ev ∈ qi, ev.entity ≠ e)
    (hpend : s3.pending = [])
    (halive : s3.world.alive e = true)
    (hmB : s3.world.markers e cB = true) :
    s3.update.world.alive e = true ∧
    s3.update.world.markers e cB = true ∧
    s3.update.world.markers e cA = false ∧
    ((EntityHandle.mk e tE cB tB).dropHandle s3.update).update.world.alive e = false := by
  have h1 := update_preserves_live_key s3 e cB tE tB hET
    (by rw [hcE]; exact Nat.one_ne_zero) hIB (by rw [hcB]; exact Nat.one_ne_zero)
    (fun c hc => absurd (hpend ▸ hc) (List.not_mem_nil c)) halive hmB
  rcases hiq with ⟨qi, hiq, hqi⟩
  have h2 := update_removes_dead_intent s3 e cA tA qi hiq hqi hIA hcA hpend halive
  have h3 := execute_preserves_live s3.handler e cB tE tB hET
    (by rw [hcE]; exact Nat.one_ne_zero) hIB (by rw [hcB]; exact Nat.one_ne_zero)
  have h4 : ((EntityHandle.mk e tE cB tB).dropHandle s3.update).update.world.alive e
      = false := by
    apply drop_last_update_despawns
    · exact h3.1
    · exact (congrFun h3.2.2.1 tE).trans hcE
    · exact htBE
    · intro e' he'
      have he'' : e' ∈ ([] : List Entity) := by
        rw [← h3.2.2.2.1]
        exact he'
      exact absurd he'' (List.not_mem_nil e')
  exact ⟨h1.1, h1.2, h2, h4⟩

/-- **C3**: multi-intent independence: for an entity spawned under intent A
and additionally claimed under intent B, dropping the A-handle and
reconciling removes only A's marker (the entity stays alive with B's marker);
dropping the B-handle afterwards and reconciling despawns the entity. -/
theorem multi_intent_independence (s : AppState) (reg : TypeId → Option ComponentId)
    (iA iB : TypeId) (cA cB : ComponentId) (bundle : List ComponentId)
    (hreg : s.intentRegistry = some reg) (hA : reg iA = some cA) (hB : reg iB = some cB)
    (hAB : cA ≠ cB)
    (_hqe : ∀ e' ∈ s.handler.drop_entity_queue, e' < s.world.nextEntity)
    (hqi : ∀ ev ∈ s.handler.drop_intent_queue, ev.entity < s.world.nextEntity)
    (hIT : ∀ c, s.handler.intent_handles (s.world.nextEntity, c) = none)
    (hpend : s.pending = []) :
    ∃ ha s1, EntityServer.spawn iA bundle s = some (ha, s1) ∧
      ∃ hb s2, EntityServer.to_managed iB ha.entity s1 = some (hb, s2) ∧
        (ha.dropHandle s2.flush).update.world.alive ha.entity = true ∧
        (ha.dropHandle s2.flush).update.world.markers ha.entity cB = true ∧
        (ha.dropHandle s2.flush).update.world.markers ha.entity cA = false ∧
        (hb.dropHandle ((ha.dropHandle s2.flush).update)).update.world.alive ha.entity
          = false := by
  refine ⟨_, _, EntityServer.spawn_eq s reg iA cA bundle hreg hA, ?_⟩
  refine ⟨_, _,
    EntityServer.to_managed_live_none _ reg iB cB _ s.handler.nextToken hreg hB
      (fset_same _ _ _)
      (by
        show fset (fset s.handler.counts s.handler.nextToken 1) (s.handler.nextToken + 1) 1
          s.handler.nextToken ≠ 0
        rw [fset_other _ _ (Nat.ne_of_lt (Nat.lt_succ_self _)), fset_same]
        exact Nat.one_ne_zero)
      (by
        show fset s.handler.intent_handles (s.world.nextEntity, cA)
          (some (s.handler.nextToken + 1)) (s.world.nextEntity, cB) = none
        rw [fset_other _ _ (fun hk => hAB ((Prod.ext_iff.1 hk).2).symm)]
        exact hIT cB), ?_⟩
  refine drop_one_of_two_intents _ _ cA cB s.handler.nextToken (s.handler.nextToken + 1)
    (s.handler.nextToken + 2) ?_ ?_ ?_ ?_ ?_ ?_ ?_ ?_ ?_ ?_ ?_
  · exact fset_same _ _ _
  · simp [EntityHandle.dropHandle, dropEntityToken, dropIntentToken, AppState.flush, fset]
  · simp [EntityHandle.dropHandle, dropEntityToken, dropIntentToken, AppState.flush, fset,
      hAB, Ne.symm hAB]
  · simp [EntityHandle.dropHandle, dropEntityToken, dropIntentToken, AppState.flush, fset]
  · simp [EntityHandle.dropHandle, dropEntityToken, dropIntentToken, AppState.flush, fset]
  · simp [EntityHandle.dropHandle, dropEntityToken, dropIntentToken, AppState.flush, fset]
  · exact Nat.ne_of_gt (Nat.lt_add_of_pos_right (by decide))
  · refine ⟨s.handler.drop_intent_queue, ?_, fun ev hev => Nat.ne_of_lt (hqi ev hev)⟩
    simp [EntityHandle.dropHandle, dropEntityToken, dropIntentToken, AppState.flush, fset]
  · rfl
  · show (List.foldl World.applyCmd
      { nextEntity := s.world.nextEntity + 1, alive := s.world.alive,
        markers := s.world.markers }
      ((s.pending ++ [Cmd.spawn s.world.nextEntity (bundle ++ [cA])]) ++
        [Cmd.insertMarker s.world.nextEntity cB])).alive s.world.nextEntity = true
    rw [hpend, List.nil_append]
    show ((World.applyCmd
      { nextEntity := s.world.nextEntity + 1, alive := s.world.alive,
        markers := s.world.markers }
      (Cmd.spawn s.world.nextEntity (bundle ++ [cA]))).applyCmd
      (Cmd.insertMarker s.world.nextEntity cB)).alive s.world.nextEntity = true
    rw [World.applyCmd_insertMarker_alive]
    exact fset_same _ _ _
  · show (List.foldl World.applyCmd
      { nextEntity := s.world.nextEntity + 1, alive := s.world.alive,
        markers := s.world.markers }
      ((s.pending ++ [Cmd.spawn s.world.nextEntity (bundle ++ [cA])]) ++
        [Cmd.insertMarker s.world.nextEntity cB])).markers s.world.nextEntity cB = true
    rw [hpend, List.nil_append]
    show ((World.applyCmd
      { nextEntity := s.world.nextEntity + 1, alive := s.world.alive,
        markers := s.world.markers }
      (Cmd.spawn s.world.nextEntity (bundle ++ [cA]))).applyCmd
      (Cmd.insertMarker s.world.nextEntity cB)).markers s.world.nextEntity cB = true
    apply World.applyCmd_insertMarker_marker
    exact fset_same _ _ _

/-- Witness for C3: entity `0` spawned under intent `3` (marker `7`), claimed
under intent `4` (marker `8`), and released in two steps. -/
theorem multi_intent_independence_witness :
    ∃ ha s1, EntityServer.spawn 3 [] wStateEmpty = some (ha, s1) ∧
      ∃ hb s2, EntityServer.to_managed 4 ha.entity s1 = some (hb, s2) ∧
        (ha.dropHandle s2.flush).update.world.alive ha.entity = true ∧
        (ha.dropHandle s2.flush).update.world.markers ha.entity 8 = true ∧
        (ha.dropHandle s2.flush).update.world.markers ha.entity 7 = false ∧
        (hb.dropHandle ((ha.dropHandle s2.flush).update)).update.world.alive ha.entity
          = false :=
  multi_intent_independence wStateEmpty wReg 3 4 7 8 [] rfl rfl rfl (by decide)
    (fun e' he' => absurd he' (List.not_mem_nil e'))
    (fun ev hev => absurd hev (List.not_mem_nil ev))
    (fun c => rfl) rfl

/-- **C6**: identity-keyed deduplication: two `get_asset` calls for the same
key `k` (the first handle kept alive across a reconciliation cycle) return
handles on the same entity — the second call finds `k` in the registry and
allocates no new entity; for distinct keys `k1 ≠ k2` (under the registry
invariants that distinct keys map to distinct entities and only to
already-allocated entities) the two calls return handles on distinct
entities. -/
theorem get_asset_identity_dedup (s : AppState) (reg : TypeId → Option ComponentId)
    (intent : TypeId) (ic : ComponentId) (idMarker : ComponentId) (k k1 k2 : Nat)
    (hreg : s.intentRegistry = some reg) (hic : reg intent = some ic)
    (hinj : ∀ a b e, s.registry a = some e → s.registry b = some e → a = b)
    (hbnd : ∀ a e, s.registry a = some e → e < s.world.nextEntity)
    (hk12 : k1 ≠ k2) :
    (∃ h1 s1, EntityAssetServer.get_asset intent idMarker k s = some (h1, s1) ∧
      ∃ h2 s2, EntityAssetServer.get_asset intent idMarker k s1.flush.update = some (h2, s2) ∧
        h2.entity = h1.entity ∧
        s1.flush.update.registry k = some h1.entity ∧
        s2.world.nextEntity = s1.flush.update.world.nextEntity) ∧
    (∃ h1 s1, EntityAssetServer.get_asset intent idMarker k1 s = some (h1, s1) ∧
      ∃ h2 s2, EntityAssetServer.get_asset intent idMarker k2 s1 = some (h2, s2) ∧
        h1.entity ≠ h2.entity) := by
  constructor
  · cases hr : s.registry k with
    | some ent =>
        rcases EntityAssetServer.get_asset_present s reg intent ic idMarker k ent hreg hic hr
          with ⟨h1, s1, hga1, he1, hrg1, hw1, hir1⟩
        have hfu := AppState.flush_update_frame s1
        have hreg' : s1.flush.update.intentRegistry = some reg := by rw [hfu.2.1, hir1, hreg]
        have hr' : s1.flush.update.registry k = some ent := by rw [hfu.1, hrg1, hr]
        rcases EntityAssetServer.get_asset_present s1.flush.update reg intent ic idMarker k ent
          hreg' hic hr' with ⟨h2, s2, hga2, he2, _, hw2, _⟩
        exact ⟨h1, s1, hga1, h2, s2, hga2, by rw [he2, he1], by rw [hr', he1], by rw [hw2]⟩
    | none =>
        rcases EntityAssetServer.get_asset_absent s reg intent ic idMarker k hreg hic hr with
          ⟨s1, hga1, hrg1, hne1, hir1⟩
        have hfu := AppState.flush_update_frame s1
        have hreg' : s1.flush.update.intentRegistry = some reg := by rw [hfu.2.1, hir1, hreg]
        have hr' : s1.flush.update.registry k = some s.world.nextEntity := by
          rw [hfu.1, hrg1]
          exact fset_same _ _ _
        rcases EntityAssetServer.get_asset_present s1.flush.update reg intent ic idMarker k
          s.world.nextEntity hreg' hic hr' with ⟨h2, s2, hga2, he2, _, hw2, _⟩
        exact ⟨_, s1, hga1, h2, s2, hga2, he2, hr', by rw [hw2]⟩
  · cases hr1 : s.registry k1 with
    | some e1 =>
        rcases EntityAssetServer.get_asset_present s reg intent ic idMarker k1 e1 hreg hic hr1
          with ⟨h1, s1, hga1, he1, hrg1, hw1, hir1⟩
        have hreg1 : s1.intentRegistry = some reg := by rw [hir1, hreg]
        cases hr2 : s.registry k2 with
        | some e2 =>
            have hr2' : s1.registry k2 = some e2 := by rw [hrg1, hr2]
            rcases EntityAssetServer.get_asset_present s1 reg intent ic idMarker k2 e2 hreg1 hic
              hr2' with ⟨h2, s2, hga2, he2, _, _, _⟩
            refine ⟨h1, s1, hga1, h2, s2, hga2, ?_⟩
            rw [he1, he2]
            intro hee
            exact hk12 (hinj k1 k2 e1 hr1 (by rw [hr2, hee]))
        | none =>
            have hr2' : s1.registry k2 = none := by rw [hrg1, hr2]
            rcases EntityAssetServer.get_asset_absent s1 reg intent ic idMarker k2 hreg1 hic hr2'
              with ⟨s2, hga2, _, _, _⟩
            refine ⟨h1, s1, hga1, _, s2, hga2, ?_⟩
            rw [he1]
            show e1 ≠ s1.world.nextEntity
            rw [hw1]
            exact Nat.ne_of_lt (hbnd k1 e1 hr1)
    | none =>
        rcases EntityAssetServer.get_asset_absent s reg intent ic idMarker k1 hreg hic hr1 with
          ⟨s1, hga1, hrg1, hne1, hir1⟩
        have hreg1 : s1.intentRegistry = some reg := by rw [hir1, hreg]
        cases hr2 : s.registry k2 with
        | some e2 =>
            have hr2' : s1.registry k2 = some e2 := by
              rw [hrg1, fset_other _ _ (Ne.symm hk12), hr2]
            rcases EntityAssetServer.get_asset_present s1 reg intent ic idMarker k2 e2 hreg1 hic
              hr2' with ⟨h2, s2, hga2, he2, _, _, _⟩
            refine ⟨_, s1, hga1, h2, s2, hga2, ?_⟩
            rw [he2]
            show s.world.nextEntity ≠ e2
            exact (Nat.ne_of_lt (hbnd k2 e2 hr2)).symm
        | none =>
            have hr2' : s1.registry k2 = none := by
              rw [hrg1, fset_other _ _ (Ne.symm hk12), hr2]
            rcases EntityAssetServer.get_asset_absent s1 reg intent ic idMarker k2 hreg1 hic hr2'
              with ⟨s2, hga2, _, _, _⟩
            refine ⟨_, s1, hga1, _, s2, hga2, ?_⟩
            have hx : s.world.nextEntity ≠ s1.world.nextEntity := by
              rw [hne1]
              exact Nat.ne_of_lt (Nat.lt_succ_self _)
            exact hx

/-- Witness for C6 at the freshly initialized state, with key `1` requested
twice and distinct keys `2`, `3`. -/
theorem get_asset_identity_dedup_witness :
    (∃ h1 s1, EntityAssetServer.get_asset 3 11 1 wStateEmpty = some (h1, s1) ∧
      ∃ h2 s2, EntityAssetServer.get_asset 3 11 1 s1.flush.update = some (h2, s2) ∧
        h2.entity = h1.entity ∧
        s1.flush.update.registry 1 = some h1.entity ∧
        s2.world.nextEntity = s1.flush.update.world.nextEntity) ∧
    (∃ h1 s1, EntityAssetServer.get_asset 3 11 2 wStateEmpty = some (h1, s1) ∧
      ∃ h2 s2, EntityAssetServer.get_asset 3 11 3 s1 = some (h2, s2) ∧
        h1.entity ≠ h2.entity) :=
  get_asset_identity_dedup wStateEmpty wReg 3 7 11 1 2 3 rfl rfl
    (fun _ _ _ ha _ => Option.noConfusion ha)
    (fun _ _ ha => Option.noConfusion ha)
    (by decide)

/-- **C10**: `EntityHandlePlugin::build` pre-registers the unit intent `()`,
so with the plugin installed `spawn::<()>` and `to_managed::<()>` succeed
without any explicit `register_intent` call by the application. -/
theorem plugin_preregisters_unit_intent (s : AppState) (bundle : List ComponentId)
    (ent : Entity) :
    ∃ s', EntityHandlePlugin.build s = some s' ∧
      (EntityServer.spawn unitTypeId bundle s').isSome ∧
      (EntityServer.to_managed unitTypeId ent s').isSome := by
  cases hc : s.components unitTypeId with
  | some cid =>
      simp only [EntityHandlePlugin.build, register_intent, register_component, hc]
      exact ⟨_, rfl, by simp [EntityServer.spawn], by simp [EntityServer.to_managed]⟩
  | none =>
      simp only [EntityHandlePlugin.build, register_intent, register_component, hc]
      exact ⟨_, rfl, by simp [EntityServer.spawn], by simp [EntityServer.to_managed]⟩

end Refactory
